import Mathlib

/-!
Verification of the angr `sim_type.py` type algebra and declaration resolver.

The Python source is shallowly embedded as follows:
* each `SimType` subclass becomes a constructor of the inductive `SimTy`;
  every object carries its `label` and `_arch` attribute where the class has
  them (`SimTypeFixedSizeArray` never receives a label, `SimStruct` passes
  `None`, `SimTypeFloat`/`SimTypeDouble` take no label);
* `SimStruct` instances are mutable Python objects with identity, so they
  live in an explicit heap (`Heap`) of `StructObj`s and are referenced by
  index (`SimTy.structRef`), mirroring the in-place field mutation that the
  declaration resolver performs to support self-referential structs;
* raising code returns `Except PyErr`;
* Python's bounded recursion stack is modelled by an explicit fuel argument
  (`PyErr.recursionError` plays the role of `RecursionError`); every
  recursive call decrements the fuel, so all definitions are structurally
  recursive and computable by `rfl`/`decide`;
* Python 2 `/` and `//` on ints are floor division, embedded as `Int.fdiv`.
-/

set_option maxHeartbeats 1000000

namespace AngrSimType

/-- Exceptions raised by the embedded code.  `notImplemented` stands for the
`NotImplemented` sentinel that `SimType.size` returns when `_size` is unset
(any arithmetic use of it raises `TypeError`). -/
inductive PyErr where
  | valueError (msg : String)
  | typeError (msg : String)
  | zeroDivisionError
  | recursionError
  | notImplemented
deriving DecidableEq

/-- The architecture descriptor consumed by the sizing code: `bits` is the
pointer/register width and `sizeof` the name → bit-width table for the
variable-width C integer kinds (archinfo's `Arch.sizeof`). -/
structure Arch where
  name : String
  bits : Int
  sizeof : List (String × Int)
deriving DecidableEq

/-- The `SimType` hierarchy as a closed tagged union.  Each constructor is one
Python class; trailing `Option String`/`Option Arch` arguments are the
`label` and `_arch` attributes.  `structRef` is a reference into the heap of
`SimStruct` objects (Python object identity).  `func` carries `argsTuple`:
true when the Python `args` attribute is the empty tuple `()` that the
FuncDecl branch supplies for an absent parameter list (tuples are hashable),
false when it is the list built by the parameter comprehension (lists are
not); `_with_arch` rebuilds `args` with a list comprehension, so bound
functions always carry a list. -/
inductive SimTy : Type where
  | bot (label : Option String) (arch : Option Arch)
  | top (size : Option Int) (label : Option String) (arch : Option Arch)
  | reg (size : Int) (label : Option String) (arch : Option Arch)
  | num (size : Int) (signed : Bool) (label : Option String) (arch : Option Arch)
  | intTy (signed : Bool) (label : Option String) (arch : Option Arch)
  | short (signed : Bool) (label : Option String) (arch : Option Arch)
  | long (signed : Bool) (label : Option String) (arch : Option Arch)
  | longlong (signed : Bool) (label : Option String) (arch : Option Arch)
  | char (label : Option String) (arch : Option Arch)
  | boolTy (label : Option String) (arch : Option Arch)
  | fd (label : Option String) (arch : Option Arch)
  | pointer (ptsTo : SimTy) (offset : Int) (label : Option String) (arch : Option Arch)
  | fixedArray (elemType : SimTy) (length : Int) (arch : Option Arch)
  | arrayTy (elemType : SimTy) (length : Option Int) (label : Option String) (arch : Option Arch)
  | stringTy (length : Option Int) (label : Option String) (arch : Option Arch)
  | func (args : List SimTy) (argsTuple : Bool) (returnty : SimTy) (label : Option String) (arch : Option Arch)
  | lengthTy (signed : Bool) (label : Option String) (arch : Option Arch)
  | floatTy (size : Int) (arch : Option Arch)
  | doubleTy (arch : Option Arch)
  | structRef (ref : Nat) (arch : Option Arch)
  | union (members : List (String × SimTy)) (label : Option String) (arch : Option Arch)

/-- A `SimStruct` object: its `_name` is `decl.name` (display name defaults
to `"<anon>"`), its `fields` the ordered field map mutated in place during
resolution. -/
structure StructObj where
  name : Option String
  fields : List (String × SimTy)

/-- The store of `SimStruct` objects; `SimTy.structRef i` points at index `i`. -/
abbrev Heap := List StructObj

/-- The `_arch` attribute of a type value. -/
def archOf : SimTy → Option Arch
  | .bot _ a => a
  | .top _ _ a => a
  | .reg _ _ a => a
  | .num _ _ _ a => a
  | .intTy _ _ a => a
  | .short _ _ a => a
  | .long _ _ a => a
  | .longlong _ _ a => a
  | .char _ a => a
  | .boolTy _ a => a
  | .fd _ a => a
  | .pointer _ _ _ a => a
  | .fixedArray _ _ a => a
  | .arrayTy _ _ _ a => a
  | .stringTy _ _ a => a
  | .func _ _ _ _ a => a
  | .lengthTy _ _ a => a
  | .floatTy _ a => a
  | .doubleTy a => a
  | .structRef _ a => a
  | .union _ _ a => a

/-- First-match association-list lookup (Python dict `key in d` / `d[key]`). -/
def lookupStr {α : Type} (l : List (String × α)) (k : String) : Option α :=
  (l.find? (fun p => p.1 = k)).map Prod.snd

/-- `d[k] = v` on an ordered dict: overwrite in place keeping the position if
the key exists, append otherwise. -/
def insertAssoc {α : Type} (k : String) (v : α) : List (String × α) → List (String × α)
  | [] => [(k, v)]
  | (k₁, v₁) :: rest =>
      if k₁ = k then (k₁, v) :: rest else (k₁, v₁) :: insertAssoc k v rest

/-- Message of the `ValueError` raised by `SimTypeInt.size` and
`SimTypePointer.size` when no architecture is bound. -/
def noArchMsg : String := "Can\x27t tell my size without an arch!"

/-- Message of the `ValueError` raised by `SimTypeArray.size` and
`SimTypeLength.size` when no architecture is bound. -/
def noArchMsgI : String := "I can\x27t tell my size without an arch!"

/-- Message of the `ValueError` raised when the bound architecture has no
entry for a variable-width integer kind. -/
def archMissingMsg (archName baseName : String) : String :=
  "Arch " ++ archName ++ " doesn\x27t have its " ++ baseName ++ " type defined!"

/-- `SimTypeInt.size` (shared by `short`/`long`/`long long` via `_base_name`):
raises without an arch, otherwise consults the arch's `sizeof` table. -/
def intFamilySize (baseName : String) : Option Arch → Except PyErr Int
  | none => .error (.valueError noArchMsg)
  | some a =>
      match lookupStr a.sizeof baseName with
      | some n => .ok n
      | none => .error (.valueError (archMissingMsg a.name baseName))

/-- `SimTypePointer.size`: raises without an arch, else the arch word width. -/
def pointerSize : Option Arch → Except PyErr Int
  | none => .error (.valueError noArchMsg)
  | some a => .ok a.bits

/-- `SimTypeArray.size` / `SimTypeLength.size`: raises without an arch, else
the arch word width (a pointer-semantics array decays to a pointer). -/
def arraySize : Option Arch → Except PyErr Int
  | none => .error (.valueError noArchMsgI)
  | some a => .ok a.bits

/-- The `size` property, dispatched over the variants.  The fuel bounds the
recursion depth exactly as CPython's stack limit does; `SimStruct.size` sums
the sizes of all fields in order (`SimUnion.size` takes their maximum), so an
unsizable field's exception propagates out unchanged. -/
def sizeA (h : Heap) : Nat → SimTy → Except PyErr Int
  | 0, _ => .error .recursionError
  | _ + 1, .bot _ _ => .error .notImplemented
  | _ + 1, .top osize _ _ =>
      match osize with
      | some s => .ok s
      | none => .error .notImplemented
  | _ + 1, .reg s _ _ => .ok s
  | _ + 1, .num s _ _ _ => .ok s
  | _ + 1, .intTy _ _ oa => intFamilySize "int" oa
  | _ + 1, .short _ _ oa => intFamilySize "short" oa
  | _ + 1, .long _ _ oa => intFamilySize "long" oa
  | _ + 1, .longlong _ _ oa => intFamilySize "long long" oa
  | _ + 1, .char _ _ => .ok 8
  | _ + 1, .boolTy _ _ => .ok 8
  | _ + 1, .fd _ _ => .ok 32
  | _ + 1, .pointer _ _ _ oa => pointerSize oa
  | fu + 1, .fixedArray elemType length _ => do
      let s ← sizeA h fu elemType
      .ok (s * length)
  | _ + 1, .arrayTy _ _ _ oa => arraySize oa
  | _ + 1, .stringTy olen _ _ =>
      match olen with
      | none => .ok 4096
      | some n => .ok (n + 1)
  | _ + 1, .func _ _ _ _ _ => .ok 4096
  | _ + 1, .lengthTy _ _ oa => arraySize oa
  | _ + 1, .floatTy s _ => .ok s
  | _ + 1, .doubleTy _ => .ok 64
  | fu + 1, .structRef r _ =>
      match h.get? r with
      | none => .error (.valueError "dangling struct reference")
      | some obj => do
          let sizes ← obj.fields.mapM (fun p => sizeA h fu p.2)
          .ok sizes.sum
  | fu + 1, .union members _ _ => do
      let sizes ← members.mapM (fun p => sizeA h fu p.2)
      match sizes with
      | [] => .error (.valueError "max() arg is an empty sequence")
      | s :: rest => .ok (rest.foldl max s)

/-- The loop body of `SimStruct.offsets`: record the running offset for each
field, then advance it by the field's size floor-divided by 8 (Python 2 `/`
on ints), so recorded offsets are in bytes while sizes are in bits. -/
def offsetsLoop (h : Heap) (fu : Nat) : Int → List (String × SimTy) → Except PyErr (List (String × Int))
  | _, [] => .ok []
  | acc, (n, t) :: rest => do
      let s ← sizeA h fu t
      let tail ← offsetsLoop h fu (acc + Int.fdiv s 8) rest
      .ok ((n, acc) :: tail)

/-- `SimStruct.offsets`, as a function of the struct's ordered field map. -/
def simStructOffsets (h : Heap) (fu : Nat) (fields : List (String × SimTy)) :
    Except PyErr (List (String × Int)) :=
  offsetsLoop h fu 0 fields

/-- `offsets` of a struct value (dereferences the object). -/
def offsetsOf (h : Heap) (fu : Nat) : SimTy → Except PyErr (List (String × Int))
  | .structRef r _ =>
      match h.get? r with
      | some obj => simStructOffsets h fu obj.fields
      | none => .error (.valueError "dangling struct reference")
  | _ => .error (.typeError "offsets is only defined on structs")

/-- `SimType.with_arch`: if the value's `_arch` already equals the requested
architecture, return the value itself; otherwise dispatch to the class's
`_with_arch`.  The generic `_with_arch` copies the value and sets `_arch`;
`SimTypePointer`, the array types, `SimTypeFunction`, `SimStruct` and
`SimUnion` rebuild themselves around recursively bound children (a rebuilt
pointer's `offset` is reset to 0 because the constructor default is used);
`SimTypeString._with_arch` returns `self` unchanged, never recording the
architecture.  Binding a struct allocates a fresh `SimStruct` object, so the
heap is threaded through and only ever appended to; binding a struct that
contains a pointer back to itself recurses forever, which the fuel turns
into `recursionError` (CPython: `RecursionError`). -/
def withArchH : Nat → Arch → Heap → SimTy → Except PyErr (SimTy × Heap)
  | 0, _, _, _ => .error .recursionError
  | fu + 1, a, h, t =>
      if archOf t = some a then .ok (t, h)
      else
        match t with
        | .bot l _ => .ok (.bot l (some a), h)
        | .top s l _ => .ok (.top s l (some a), h)
        | .reg s l _ => .ok (.reg s l (some a), h)
        | .num s g l _ => .ok (.num s g l (some a), h)
        | .intTy g l _ => .ok (.intTy g l (some a), h)
        | .short g l _ => .ok (.short g l (some a), h)
        | .long g l _ => .ok (.long g l (some a), h)
        | .longlong g l _ => .ok (.longlong g l (some a), h)
        | .char l _ => .ok (.char l (some a), h)
        | .boolTy l _ => .ok (.boolTy l (some a), h)
        | .fd l _ => .ok (.fd l (some a), h)
        | .pointer p _ l _ => do
            let (p1, h1) ← withArchH fu a h p
            .ok (.pointer p1 0 l (some a), h1)
        | .fixedArray e len _ => do
            let (e1, h1) ← withArchH fu a h e
            .ok (.fixedArray e1 len (some a), h1)
        | .arrayTy e len l _ => do
            let (e1, h1) ← withArchH fu a h e
            .ok (.arrayTy e1 len l (some a), h1)
        | .stringTy len l oa => .ok (.stringTy len l oa, h)
        | .func args _ ret l _ => do
            let (args1, h1) ← args.foldlM
              (fun (acc : List SimTy × Heap) x => do
                let (x1, h2) ← withArchH fu a acc.2 x
                Except.ok (acc.1 ++ [x1], h2)) (([] : List SimTy), h)
            let (ret1, h2) ← withArchH fu a h1 ret
            .ok (.func args1 false ret1 l (some a), h2)
        | .lengthTy g l _ => .ok (.lengthTy g l (some a), h)
        | .floatTy s _ => .ok (.floatTy s (some a), h)
        | .doubleTy _ => .ok (.doubleTy (some a), h)
        | .structRef r _ =>
            match h.get? r with
            | none => .error (.valueError "dangling struct reference")
            | some obj => do
                let (fs1, h1) ← obj.fields.foldlM
                  (fun (acc : List (String × SimTy) × Heap) p => do
                    let (v1, h2) ← withArchH fu a acc.2 p.2
                    Except.ok (acc.1 ++ [(p.1, v1)], h2)) (([] : List (String × SimTy)), h)
                .ok (.structRef h1.length (some a), h1 ++ [⟨obj.name, fs1⟩])
        | .union ms l _ => do
            let (ms1, h1) ← ms.foldlM
              (fun (acc : List (String × SimTy) × Heap) p => do
                let (v1, h2) ← withArchH fu a acc.2 p.2
                Except.ok (acc.1 ++ [(p.1, v1)], h2)) (([] : List (String × SimTy)), h)
            .ok (.union ms1 l (some a), h1)

/-- Recognizer for the `SimTypeString` variant (the one class whose
`_with_arch` returns `self`). -/
def isStringTy : SimTy → Bool
  | .stringTy _ _ _ => true
  | _ => false

/-- Comparison of two `SimStruct` objects, parameterized by the comparator
for the field values: display names first, then the ordered field maps as
`OrderedDict` equality — same length, and pairwise equal keys and values in
order, short-circuiting at the first mismatch (a raising value comparison
propagates). -/
def structEqBody (cmp : SimTy → SimTy → Except PyErr Bool) (o1 o2 : StructObj) :
    Except PyErr Bool :=
  if (o1.name.getD "<anon>") ≠ (o2.name.getD "<anon>") then .ok false
  else if o1.fields.length ≠ o2.fields.length then .ok false
  else
    forIn (o1.fields.zip o2.fields) true (fun p _ => do
      if p.1.1 ≠ p.2.1 then Except.ok (ForInStep.done false)
      else do
        let b ← cmp p.1.2 p.2.2
        if b then Except.ok (ForInStep.yield true)
        else Except.ok (ForInStep.done false))

/-- `SimType.__eq__`: `False` across different classes, otherwise the
attributes named in the class's `_fields` tuple are compared in order.
Because `_fields` of the variable-width integers, pointers and `size_t`
contains the computed `size` property, comparing an architecture-unbound
value of those variants raises the size `ValueError` instead of answering.
`SimTypeFixedSizeArray` and `SimUnion` declare no `_fields`, so any two
values of those classes compare equal.  A function whose `args` is the
tuple `()` compares unequal to one whose `args` is a list (CPython tuples
and lists are never `==`, without comparing elements); otherwise argument
lists compare pairwise, short-circuiting.  Struct objects compare by
display name and then by their ordered field maps (pairwise,
short-circuiting).  The `label` and `_arch` attributes are never part of
`_fields`. -/
def tyEq (h : Heap) : Nat → SimTy → SimTy → Except PyErr Bool
  | 0, _, _ => .error .recursionError
  | fu + 1, x, y =>
      match x, y with
      | .bot _ _, .bot _ _ => .ok true
      | .top s1 _ _, .top s2 _ _ => .ok (decide (s1 = s2))
      | .reg s1 _ _, .reg s2 _ _ => .ok (decide (s1 = s2))
      | .num s1 g1 _ _, .num s2 g2 _ _ => .ok (decide (g1 = g2 ∧ s1 = s2))
      | .intTy g1 _ o1, .intTy g2 _ o2 => do
          let s1 ← intFamilySize "int" o1
          let s2 ← intFamilySize "int" o2
          if s1 ≠ s2 then .ok false else .ok (decide (g1 = g2))
      | .short g1 _ o1, .short g2 _ o2 => do
          let s1 ← intFamilySize "short" o1
          let s2 ← intFamilySize "short" o2
          if s1 ≠ s2 then .ok false else .ok (decide (g1 = g2))
      | .long g1 _ o1, .long g2 _ o2 => do
          let s1 ← intFamilySize "long" o1
          let s2 ← intFamilySize "long" o2
          if s1 ≠ s2 then .ok false else .ok (decide (g1 = g2))
      | .longlong g1 _ o1, .longlong g2 _ o2 => do
          let s1 ← intFamilySize "long long" o1
          let s2 ← intFamilySize "long long" o2
          if s1 ≠ s2 then .ok false else .ok (decide (g1 = g2))
      | .char _ _, .char _ _ => .ok true
      | .boolTy _ _, .boolTy _ _ => .ok true
      | .fd _ _, .fd _ _ => .ok true
      | .pointer p1 _ _ o1, .pointer p2 _ _ o2 => do
          let s1 ← pointerSize o1
          let s2 ← pointerSize o2
          if s1 ≠ s2 then .ok false else tyEq h fu p1 p2
      | .fixedArray _ _ _, .fixedArray _ _ _ => .ok true
      | .arrayTy e1 l1 _ _, .arrayTy e2 l2 _ _ => do
          let b ← tyEq h fu e1 e2
          if b then .ok (decide (l1 = l2)) else .ok false
      | .stringTy l1 _ _, .stringTy l2 _ _ => .ok (decide (l1 = l2))
      | .func as1 tup1 r1 _ _, .func as2 tup2 r2 _ _ => do
          let b ←
            if tup1 ≠ tup2 then Except.ok false
            else if as1.length ≠ as2.length then Except.ok false
            else
              forIn (as1.zip as2) true (fun p _ => do
                let b ← tyEq h fu p.1 p.2
                if b then Except.ok (ForInStep.yield true)
                else Except.ok (ForInStep.done false))
          if b then tyEq h fu r1 r2 else .ok false
      | .lengthTy g1 _ o1, .lengthTy g2 _ o2 =>
          if g1 ≠ g2 then .ok false
          else do
            let s1 ← arraySize o1
            let s2 ← arraySize o2
            .ok (decide (s1 = s2))
      | .floatTy s1 _, .floatTy s2 _ => .ok (decide (s1 = s2))
      | .doubleTy _, .doubleTy _ => .ok true
      | .structRef r1 _, .structRef r2 _ =>
          match h.get? r1, h.get? r2 with
          | some o1, some o2 => structEqBody (tyEq h fu) o1 o2
          | _, _ => .error (.valueError "dangling struct reference")
      | .union _ _ _, .union _ _ _ => .ok true
      | _, _ => .ok false

/-- Hash model of Python's `hash(None)`. -/
def noneHash : Nat := 5531

/-- Hash model of Python's `hash(NotImplemented)`. -/
def notImplHash : Nat := 5533

/-- Hash model of Python booleans: `hash(False) = 0`, `hash(True) = 1`. -/
def boolHash : Bool → Nat
  | false => 0
  | true => 1

/-- Hash model of an optional integer attribute (`None` or a Python int;
small non-negative ints hash to themselves). -/
def optIntHash : Option Int → Nat
  | none => noneHash
  | some n => n.natAbs

/-- Model of CPython `hash` on a tuple whose element hashes are given: some
deterministic mix of the element hashes (the exact mixing constants are
abstracted; only determinism in the element hashes matters). -/
def tupleHash (l : List Nat) : Nat :=
  l.foldl (fun acc x => acc * 1000003 + x) 5381

/-- `SimType.__hash__`: `hash(type(self))` XORed with the hashes of the
`_fields` attributes.  The per-class `hash(type(...))` constants and the
primitive hashes are abstracted by fixed distinct numbers; what matters is
that the hash depends only on the same attribute values that `__eq__`
compares.  Accessing the `size` property of an unbound variable-width
integer/pointer raises, exactly as in `__eq__`.  A function whose `args`
is the tuple `()` hashes successfully — the tuple hash combines the
(recursively computed) element hashes — while one whose `args` is a list
raises `TypeError`, as does `SimStruct.fields`, an `OrderedDict`. -/
def tyHash (h : Heap) : Nat → SimTy → Except PyErr Nat
  | 0, _ => .error .recursionError
  | fu + 1, t =>
      match t with
      | .bot _ _ => .ok 101
      | .top s _ _ => .ok (103 ^^^ (match s with | none => notImplHash | some n => n.natAbs))
      | .reg s _ _ => .ok (107 ^^^ s.natAbs)
      | .num s g _ _ => .ok (109 ^^^ boolHash g ^^^ s.natAbs)
      | .intTy g _ o => do
          let s ← intFamilySize "int" o
          .ok (113 ^^^ s.natAbs ^^^ boolHash g)
      | .short g _ o => do
          let s ← intFamilySize "short" o
          .ok (127 ^^^ s.natAbs ^^^ boolHash g)
      | .long g _ o => do
          let s ← intFamilySize "long" o
          .ok (131 ^^^ s.natAbs ^^^ boolHash g)
      | .longlong g _ o => do
          let s ← intFamilySize "long long" o
          .ok (137 ^^^ s.natAbs ^^^ boolHash g)
      | .char _ _ => .ok (139 ^^^ 8)
      | .boolTy _ _ => .ok (149 ^^^ 8)
      | .fd _ _ => .ok (151 ^^^ 32)
      | .pointer p _ _ o => do
          let s ← pointerSize o
          let hp ← tyHash h fu p
          .ok (157 ^^^ s.natAbs ^^^ hp)
      | .fixedArray _ _ _ => .ok 163
      | .arrayTy e l _ _ => do
          let he ← tyHash h fu e
          .ok (167 ^^^ he ^^^ optIntHash l)
      | .stringTy l _ _ => .ok (173 ^^^ (139 ^^^ 8) ^^^ optIntHash l ^^^ optIntHash l)
      | .func args tup ret _ _ =>
          if tup then do
            let hs ← args.mapM (fun x => tyHash h fu x)
            let hr ← tyHash h fu ret
            .ok (199 ^^^ tupleHash hs ^^^ hr)
          else .error (.typeError "unhashable type: \x27list\x27")
      | .lengthTy g _ o => do
          let s ← arraySize o
          .ok (179 ^^^ boolHash g ^^^ s.natAbs ^^^ noneHash ^^^ noneHash)
      | .floatTy s _ => .ok (181 ^^^ s.natAbs)
      | .doubleTy _ => .ok (191 ^^^ 64)
      | .structRef r _ =>
          match h.get? r with
          | none => .error (.valueError "dangling struct reference")
          | some _ => .error (.typeError "unhashable type: \x27collections.OrderedDict\x27")
      | .union _ _ _ => .ok 193

/-- A pycparser constant-expression subtree, as far as `_parse_const`
distinguishes shapes: `Constant` nodes carry their literal text, `BinaryOp`
nodes their operator string, and every other node class (identifiers,
function calls, unary operators, ...) falls into `other`. -/
inductive CExpr where
  | const (value : String)
  | binop (op : String) (left : CExpr) (right : CExpr)
  | other

/-- Python's `int()` applied to the literal text a pycparser `Constant`
carries.  pycparser integer literals are bare digit strings, so only those
are accepted; any other text (a float literal such as `"1.5"`, hex, or
suffixed literals) raises `ValueError`, exactly like CPython's `int()` on
those strings. -/
def pyInt (s : String) : Option Int :=
  if s.data.length = 0 then none
  else if s.data.all Char.isDigit then
    some ((s.data.foldl (fun acc c => acc * 10 + (c.toNat - 48)) (0 : Nat) : Nat) : Int)
  else none

/-- `int(c.value)` on a `Constant` node, as an `Except`: `ValueError` when
the literal text is not an integer literal. -/
def intLiteral (v : String) : Except PyErr Int :=
  match pyInt v with
  | some n => .ok n
  | none => .error (.valueError ("invalid literal for int() with base 10: " ++ v))

/-- `_parse_const`: evaluates `Constant` via `int()`, recurses through
`BinaryOp` for `+ - * /` (Python 2 `//`, floor division — dividing by zero
raises `ZeroDivisionError`, which is *not* a `ValueError`), and raises
`ValueError` for any unsupported operator or node. -/
def parseConst : CExpr → Except PyErr Int
  | .const v => intLiteral v
  | .binop op l r =>
      if op = "+" then do
        let a ← parseConst l
        let b ← parseConst r
        .ok (a + b)
      else if op = "-" then do
        let a ← parseConst l
        let b ← parseConst r
        .ok (a - b)
      else if op = "*" then do
        let a ← parseConst l
        let b ← parseConst r
        .ok (a * b)
      else if op = "/" then do
        let a ← parseConst l
        let b ← parseConst r
        if b = 0 then .error .zeroDivisionError else .ok (Int.fdiv a b)
      else .error (.valueError ("Binary op " ++ op))
  | .other => .error (.valueError "unsupported constant expression node")

/-- `_parse_const(decl.dim)` where the dimension may be absent (`None`),
which falls into the catch-all `raise ValueError(c)`. -/
def parseConstOpt : Option CExpr → Except PyErr Int
  | none => .error (.valueError "None")
  | some e => parseConst e

/-- Modelled from the spec's Constant Folder contract (§4.3), for comparison
with the source-derived `parseConst`: evaluate integer literals and binary
`+ - * /` to their exact integer value, undefined elsewhere.  The division
is the one the counterexample for the folder claim forces: floor division
(the spec's words say truncation toward zero, which `parseConst` refutes). -/
def specFold : CExpr → Option Int
  | .const v => pyInt v
  | .binop op l r =>
      if op = "+" then do
        let a ← specFold l
        let b ← specFold r
        some (a + b)
      else if op = "-" then do
        let a ← specFold l
        let b ← specFold r
        some (a - b)
      else if op = "*" then do
        let a ← specFold l
        let b ← specFold r
        some (a * b)
      else if op = "/" then do
        let a ← specFold l
        let b ← specFold r
        if b = 0 then none else some (Int.fdiv a b)
      else none
  | .other => none

/-- A pycparser declaration subtree, as far as `_decl_to_type` inspects it:
`FuncDecl` (optional parameter list, each parameter standing for its
`.type`, and the return declarator), `TypeDecl` wrappers, `PtrDecl`,
`ArrayDecl` with an optional dimension expression, `Struct` with an optional
tag and optional field declarations (absent for a bare `struct T`
reference), `Union`, and `IdentifierType` with its name words. -/
inductive CDecl where
  | funcDecl (args : Option (List CDecl)) (ret : CDecl)
  | typeDecl (inner : CDecl)
  | ptrDecl (inner : CDecl)
  | arrayDecl (inner : CDecl) (dim : Option CExpr)
  | structDecl (name : Option String) (decls : Option (List (String × CDecl)))
  | unionDecl (members : List (String × CDecl))
  | identifierType (names : List String)

/-- The resolver state: the heap of struct objects, the `extra_types` scope
(typedefs and `struct `-prefixed tag keys), and a count of the warnings the
array-dimension fallback logs. -/
structure RState where
  heap : Heap
  extraTypes : List (String × SimTy)
  warnings : Nat

/-- The module-level `BASIC_TYPES` dict of standard C scalar names. -/
def BASIC_TYPES : List (String × SimTy) := [
  ("char", .char none none),
  ("signed char", .char none none),
  ("unsigned char", .char none none),
  ("short", .short true none none),
  ("signed short", .short true none none),
  ("unsigned short", .short false none none),
  ("short int", .short true none none),
  ("signed short int", .short true none none),
  ("unsigned short int", .short false none none),
  ("int", .intTy true none none),
  ("signed int", .intTy true none none),
  ("unsigned int", .intTy false none none),
  ("long", .long true none none),
  ("signed long", .long true none none),
  ("unsigned long", .long false none none),
  ("long int", .long true none none),
  ("signed long int", .long true none none),
  ("unsigned long int", .long false none none),
  ("long long", .longlong true none none),
  ("signed long long", .longlong true none none),
  ("unsigned long long", .longlong false none none),
  ("long long int", .longlong true none none),
  ("signed long long int", .longlong true none none),
  ("unsigned long long int", .longlong false none none),
  ("float", .floatTy 32 none),
  ("double", .doubleTy none),
  ("void", .bot none none)]

/-- The module-level `ALL_TYPES` registry: the fixed-width aliases updated
with `BASIC_TYPES` (key sets are disjoint, so the update is concatenation).
The `define_struct("struct example ...")` call that runs at module import is
not included; the claims exercise that declaration through the resolver
directly. -/
def ALL_TYPES : List (String × SimTy) := [
  ("int8_t", .num 8 true none none),
  ("uint8_t", .num 8 false none none),
  ("byte", .num 8 false none none),
  ("int16_t", .num 16 true none none),
  ("uint16_t", .num 16 false none none),
  ("word", .num 16 false none none),
  ("int32_t", .num 32 true none none),
  ("uint32_t", .num 32 false none none),
  ("dword", .num 32 false none none),
  ("int64_t", .num 64 true none none),
  ("uint64_t", .num 64 false none none),
  ("qword", .num 64 false none none),
  ("ptrdiff_t", .long false none none),
  ("size_t", .lengthTy false none none),
  ("ssize_t", .lengthTy true none none),
  ("uintptr_t", .long false none none),
  ("string", .stringTy none none none)] ++ BASIC_TYPES

/-- Message of the `TypeError` raised for an unknown identifier.  The source
formats it as `"Unknown type '%s'" % ' '.join(key)` where `key` is already a
joined string, so the characters of the key get space-separated. -/
def unknownTypeMsg (key : String) : String :=
  "Unknown type \x27" ++ String.intercalate " " (key.toList.map Char.toString) ++ "\x27"

/-- `_decl_to_type`: recursive descent over the declarator AST, threading the
resolver state.  Notable points retraced from the source:
* a `FuncDecl` with absent `args` gets the empty argument tuple, otherwise
  every parameter's declarator is resolved — including an explicit `void`
  parameter, which resolves to `SimTypeBottom` and is *not* dropped;
* an `ArrayDecl` resolves its element first, then folds the dimension;
  only a `ValueError` from the folder is caught (warning + length 0);
* a `Struct` always allocates a fresh empty `SimStruct` object first; with a
  tag already in `extra_types` that fresh object is discarded in favor of
  the registered one, otherwise the tag is registered *before* any field is
  resolved; fields are then resolved in order, each assigned into the target
  object's field map in place;
* an `IdentifierType` is looked up in `extra_types`, then `ALL_TYPES`. -/
def resolveDecl : Nat → CDecl → RState → Except PyErr (SimTy × RState)
  | 0, _, _ => .error .recursionError
  | fu + 1, .funcDecl oargs ret, st => do
      let (argtyps, st1) ←
        match oargs with
        | none => Except.ok (([] : List SimTy), st)
        | some params =>
            params.foldlM
              (fun (acc : List SimTy × RState) d => do
                let (t, st2) ← resolveDecl fu d acc.2
                Except.ok (acc.1 ++ [t], st2)) (([] : List SimTy), st)
      let (rt, st2) ← resolveDecl fu ret st1
      .ok (.func argtyps oargs.isNone rt none none, st2)
  | fu + 1, .typeDecl inner, st => resolveDecl fu inner st
  | fu + 1, .ptrDecl inner, st => do
      let (p, st1) ← resolveDecl fu inner st
      .ok (.pointer p 0 none none, st1)
  | fu + 1, .arrayDecl inner odim, st => do
      let (elemTy, st1) ← resolveDecl fu inner st
      match parseConstOpt odim with
      | .ok n => .ok (.fixedArray elemTy n none, st1)
      | .error (.valueError _) =>
          .ok (.fixedArray elemTy 0 none, { st1 with warnings := st1.warnings + 1 })
      | .error e => .error e
  | fu + 1, .structDecl oname odecls, st => do
      let r0 := st.heap.length
      let st1 : RState := { st with heap := st.heap ++ [⟨oname, []⟩] }
      let (r, st2) ←
        match oname with
        | none => Except.ok (r0, st1)
        | some nm =>
            match lookupStr st1.extraTypes ("struct " ++ nm) with
            | some (.structRef r1 _) => Except.ok (r1, st1)
            | some _ => Except.error (.typeError "struct key bound to a non-struct value")
            | none =>
                Except.ok (r0, { st1 with
                  extraTypes := insertAssoc ("struct " ++ nm) (.structRef r0 none) st1.extraTypes })
      let st3 ←
        match odecls with
        | none => Except.ok st2
        | some ds =>
            ds.foldlM
              (fun (stAcc : RState) fdecl => do
                let (ty, st4) ← resolveDecl fu fdecl.2 stAcc
                match st4.heap.get? r with
                | none => Except.error (.valueError "dangling struct reference")
                | some obj =>
                    Except.ok { st4 with
                      heap := st4.heap.set r ⟨obj.name, insertAssoc fdecl.1 ty obj.fields⟩ }) st2
      .ok (.structRef r none, st3)
  | fu + 1, .unionDecl ms, st => do
      let (members, st1) ← ms.foldlM
        (fun (acc : List (String × SimTy) × RState) p => do
          let (t, st2) ← resolveDecl fu p.2 acc.2
          Except.ok (insertAssoc p.1 t acc.1, st2)) (([] : List (String × SimTy)), st)
      .ok (.union members none none, st1)
  | _ + 1, .identifierType names, st =>
      let key := String.intercalate " " names
      match lookupStr st.extraTypes key with
      | some t => .ok (t, st)
      | none =>
          match lookupStr ALL_TYPES key with
          | some t => .ok (t, st)
          | none => .error (.typeError (unknownTypeMsg key))

/-- The state a `parse_type`-style resolution starts from: empty heap, empty
`extra_types`, no warnings. -/
def initState : RState := ⟨[], [], 0⟩

/-- A 64-bit architecture descriptor with 32-bit `int` (archinfo's AMD64:
`bits = 64`, `sizeof = {short: 16, int: 32, long: 64, long long: 64}`, plus
the 8-bit `char` every architecture has). -/
def amd64 : Arch := ⟨"AMD64", 64, [("char", 8), ("short", 16), ("int", 32), ("long", 64), ("long long", 64)]⟩

/-- The pycparser AST of `struct example { int foo; int bar; char *hello; };`
as `_decl_to_type` receives it via `parse_type`/`define_struct`. -/
def exampleDecl : CDecl := .structDecl (some "example") (some [
  ("foo", .typeDecl (.identifierType ["int"])),
  ("bar", .typeDecl (.identifierType ["int"])),
  ("hello", .ptrDecl (.typeDecl (.identifierType ["char"])))])

/-- End-to-end pipeline for the `struct example` claim: resolve the
declaration from a fresh scope, bind the resulting struct to `amd64` with
`with_arch`, then query `size` and `offsets`. -/
def exampleLayout : Except PyErr (Int × List (String × Int)) := do
  let (t, st) ← resolveDecl 32 exampleDecl initState
  let (tb, h1) ← withArchH 32 amd64 st.heap t
  let sz ← sizeA h1 32 tb
  let offs ← offsetsOf h1 32 tb
  .ok (sz, offs)

/-- The pycparser AST of `struct Node { struct Node *next; int val; }`:
the field `next` has a pointer declarator around a bare `struct Node`
reference (a `Struct` node with no field declarations). -/
def nodeDecl : CDecl := .structDecl (some "Node") (some [
  ("next", .ptrDecl (.typeDecl (.structDecl (some "Node") none))),
  ("val", .typeDecl (.identifierType ["int"]))])

/-- The `Node` struct object with each field individually bound to `amd64`
(the state reached by giving every field value its `_arch`): the `next`
pointer still points back at the struct itself. -/
def nodeBoundHeap : Heap := [⟨some "Node", [
  ("next", .pointer (.structRef 0 (some amd64)) 0 none (some amd64)),
  ("val", .intTy true none (some amd64))]⟩]

theorem except_ok_bind {ε α β : Type} (a : α) (f : α → Except ε β) :
    ((Except.ok a : Except ε α) >>= f) = f a := rfl

theorem except_error_bind {ε α β : Type} (e : ε) (f : α → Except ε β) :
    ((Except.error e : Except ε α) >>= f) = .error e := rfl

theorem except_bind_eq_ok {ε α β : Type} {x : Except ε α} {f : α → Except ε β} {v : β} :
    (x >>= f) = .ok v ↔ ∃ a, x = .ok a ∧ f a = .ok v := by
  cases x with
  | error e =>
      rw [except_error_bind]
      constructor
      · intro hc
        exact Except.noConfusion hc
      · rintro ⟨a, ha, -⟩
        exact Except.noConfusion ha
  | ok a =>
      rw [except_ok_bind]
      constructor
      · intro hf
        exact ⟨a, rfl, hf⟩
      · rintro ⟨a1, ha, hf⟩
        injection ha with ha1
        rw [ha1]
        exact hf

theorem ite_error_eq_ok {ε α : Type} {c : Prop} [Decidable c] {e : ε} {x v : α} :
    (if c then Except.error e else Except.ok x) = .ok v ↔ ¬c ∧ x = v := by
  by_cases hc : c <;> simp [hc]

theorem ite_none_eq_some {α : Type} {c : Prop} [Decidable c] {x v : α} :
    (if c then (none : Option α) else some x) = some v ↔ ¬c ∧ x = v := by
  by_cases hc : c <;> simp [hc]

/-- Claim C1 (amended): parsing `struct example { int foo; int bar;
char *hello; };` and binding the result to a 64-bit architecture with 32-bit
`int` yields a struct of total size 128 bits whose field-offset mapping is
`{foo: 0, bar: 4, hello: 8}` — the offsets scan advances by `size / 8`, so
offsets are byte counts while the total size is a bit count. -/
theorem c1_example_layout :
    exampleLayout = .ok (128, [("foo", 0), ("bar", 4), ("hello", 8)]) := rfl

/-- Claim C1, counterexample: the end-to-end result is total size 128 bits
with byte offsets `{foo: 0, bar: 4, hello: 8}`, not the claimed 136 bits
with bit offsets `{foo: 0, bar: 32, hello: 64}`. -/
theorem c1_counterexample :
    exampleLayout = .ok (128, [("foo", 0), ("bar", 4), ("hello", 8)]) ∧
    exampleLayout ≠ .ok (136, [("foo", 0), ("bar", 32), ("hello", 64)]) := by
  constructor
  · rfl
  · intro hc
    rw [show exampleLayout = .ok (128, [("foo", 0), ("bar", 4), ("hello", 8)]) from rfl] at hc
    simp at hc

/-- Claim C3: resolving `struct Node { struct Node *next; int val; }`
registers the still-empty `Node` object under its tag before any field is
resolved, so the field `next` becomes a pointer whose pointee is the very
struct object being defined — heap reference 0, the same reference the
resolution returns (identity, not mere structural equality); and `size`
never recurses into a pointer's pointee: the architecture-bound `Node` has
the finite size 64 + 32 (pointer width plus `int` width), and a pointer's
size is the same whatever it points to. -/
theorem c3_self_referential_struct :
    (resolveDecl 32 nodeDecl initState =
      .ok (.structRef 0 none,
        ⟨[⟨some "Node", [("next", .pointer (.structRef 0 none) 0 none none),
                         ("val", .intTy true none none)]⟩,
          ⟨some "Node", []⟩],
         [("struct Node", .structRef 0 none)], 0⟩)) ∧
    sizeA nodeBoundHeap 3 (.structRef 0 (some amd64)) = .ok (64 + 32) ∧
    (∀ (h : Heap) (fu : Nat) (p p1 : SimTy) (off off1 : Int) (l l1 : Option String)
        (oa : Option Arch),
      sizeA h (fu + 1) (.pointer p off l oa) = sizeA h (fu + 1) (.pointer p1 off1 l1 oa)) := by
  refine ⟨rfl, rfl, ?_⟩
  intro h fu p p1 off off1 l l1 oa
  rfl

/-- Claim C10: a CString's size needs no architecture: with a known length
`n` it is `n + 1` (room for the NUL terminator), with unknown length it is
the fixed sentinel 4096. -/
theorem c10_string_size :
    (∀ (h : Heap) (fu : Nat) (lab : Option String) (oa : Option Arch),
      sizeA h (fu + 1) (.stringTy none lab oa) = .ok 4096) ∧
    (∀ (h : Heap) (fu : Nat) (n : Int) (lab : Option String) (oa : Option Arch),
      sizeA h (fu + 1) (.stringTy (some n) lab oa) = .ok (n + 1)) :=
  ⟨fun _ _ _ _ => rfl, fun _ _ _ _ _ => rfl⟩

/-- Claim C9, counterexample to "naming the offending field": the error a
struct size/offsets query raises for an unbound `int` field is that field's
own fixed-message exception — identical whether the field is called `x` or
`y` — so it cannot name the offending field. -/
theorem c9_counterexample :
    sizeA [⟨none, [("x", .intTy true none none)]⟩] 2 (.structRef 0 none) =
      .error (.valueError noArchMsg) ∧
    sizeA [⟨none, [("y", .intTy true none none)]⟩] 2 (.structRef 0 none) =
      .error (.valueError noArchMsg) ∧
    offsetsOf [⟨none, [("x", .intTy true none none)]⟩] 2 (.structRef 0 none) =
      .error (.valueError noArchMsg) := ⟨rfl, rfl, rfl⟩

/-- Claim C2, counterexample: a struct of two intrinsically sized 32-bit
fields has offsets `{a: 0, b: 4}` because the scan advances by `size / 8`;
`offset(a) + size(a) = 0 + 32` is not `offset(b) = 4`, refuting the claimed
packed law `offset(f_i) + size(f_i) = offset(f_{i+1})`. -/
theorem c2_counterexample :
    simStructOffsets [] 2 [("a", .num 32 true none none), ("b", .num 32 true none none)] =
      .ok [("a", 0), ("b", 4)] ∧
    sizeA [] 2 (.num 32 true none none) = .ok 32 ∧
    (0 + 32 : Int) ≠ 4 := ⟨rfl, rfl, by decide⟩

/-- Claim C5, counterexample to "truncates toward zero": the dimension
expression `(0-7)/2` is built only from integer literals and the four
operators, and the folder evaluates it to -4 (floor division, Python `//`),
while truncation toward zero gives -3. -/
theorem c5_counterexample :
    parseConst (.binop "/" (.binop "-" (.const "0") (.const "7")) (.const "2")) = .ok (-4) ∧
    Int.tdiv (-7) 2 = -3 ∧ ((-4 : Int) ≠ -3) := ⟨rfl, by decide, by decide⟩

/-- Claim C6, counterexample: resolving `int f(void)` — a function
declarator whose explicit parameter list is `(void)` — yields a Function
whose argument list is the one-element list `[BOT]`, not zero arguments. -/
theorem c6_counterexample :
    resolveDecl 8 (.funcDecl (some [.typeDecl (.identifierType ["void"])])
        (.typeDecl (.identifierType ["int"]))) initState =
      .ok (.func [.bot none none] false (.intTy true none none) none none, initState) ∧
    ([SimTy.bot none none] ≠ ([] : List SimTy)) := ⟨rfl, by simp⟩

/-- Claim C8, counterexample: `with_arch` on an unbound CString returns the
very same value, still carrying no architecture — not a new value carrying
the requested architecture. -/
theorem c8_counterexample :
    withArchH 2 amd64 [] (.stringTy none none none) = .ok (.stringTy none none none, []) ∧
    archOf (.stringTy none none none) = none := ⟨rfl, rfl⟩

/-- Claim C4, counterexample: an unbound `int` and its architecture-bound
copy are not recognized as the same type — `__eq__` reads the `size`
property of the unbound operand, which raises the no-arch `ValueError`
instead of answering True. -/
theorem c4_counterexample :
    withArchH 2 amd64 [] (.intTy true none none) = .ok (.intTy true none (some amd64), []) ∧
    tyEq [] 4 (.intTy true none none) (.intTy true none (some amd64)) =
      .error (.valueError noArchMsg) := ⟨rfl, rfl⟩

theorem except_pure {ε α : Type} (a : α) : (pure a : Except ε α) = .ok a := rfl

/-- Claim C7: when the element declarator resolves and the dimension
expression fails to fold with a `ValueError` — as it does for identifier or
call nodes (`CExpr.other`), floating literals, and bitwise/shift/comparison
operators — array resolution does not hard-fail: it yields
`FixedArray(element, 0)` and logs one warning. -/
theorem c7_array_dim_fallback :
    (∀ (fu : Nat) (inner : CDecl) (odim : Option CExpr) (st st1 : RState)
        (elemTy : SimTy) (msg : String),
      resolveDecl fu inner st = .ok (elemTy, st1) →
      parseConstOpt odim = .error (.valueError msg) →
      resolveDecl (fu + 1) (.arrayDecl inner odim) st =
        .ok (.fixedArray elemTy 0 none, { st1 with warnings := st1.warnings + 1 })) ∧
    (∃ m, parseConst .other = .error (.valueError m)) ∧
    (∃ m, parseConst (.const "1.5") = .error (.valueError m)) ∧
    (∃ m, parseConst (.binop "<<" (.const "5") (.const "2")) = .error (.valueError m)) := by
  refine ⟨?_, ⟨_, rfl⟩, ⟨_, rfl⟩, ⟨_, rfl⟩⟩
  intro fu inner odim st st1 elemTy msg hinner hdim
  simp only [resolveDecl, hinner, except_ok_bind, hdim]

/-- Claim C7, witness: `char x[foo()]`-style resolution (dimension of an
unsupported node shape) succeeds with length 0 and one recorded warning. -/
theorem c7_witness :
    resolveDecl 3 (.arrayDecl (.typeDecl (.identifierType ["char"])) (some .other)) initState =
      .ok (.fixedArray (.char none none) 0 none, ⟨[], [], 1⟩) :=
  c7_array_dim_fallback.1 2 (.typeDecl (.identifierType ["char"])) (some .other)
    initState initState (.char none none) "unsupported constant expression node" rfl rfl

/-- Claim C6 (amended): a function declarator with an absent parameter list
resolves to a Function with zero arguments, but an explicit `void` parameter
list resolves to a Function with exactly one argument, the `void`/Bottom
type. -/
theorem c6_param_lists :
    (∀ (fu : Nat) (ret : CDecl) (st : RState) (t : SimTy) (st1 : RState),
      resolveDecl fu ret st = .ok (t, st1) →
      resolveDecl (fu + 1) (.funcDecl none ret) st = .ok (.func [] true t none none, st1)) ∧
    (∀ (fu : Nat) (ret : CDecl) (st : RState) (t : SimTy) (st1 : RState),
      lookupStr st.extraTypes "void" = none →
      resolveDecl (fu + 2) ret st = .ok (t, st1) →
      resolveDecl (fu + 3) (.funcDecl (some [.typeDecl (.identifierType ["void"])]) ret) st =
        .ok (.func [.bot none none] false t none none, st1)) := by
  constructor
  · intro fu ret st t st1 hret
    simp only [resolveDecl, except_ok_bind, hret, Option.isNone_none]
  · intro fu ret st t st1 hvoid hret
    have hall : lookupStr ALL_TYPES "void" = some (.bot none none) := rfl
    have hkey : (" ".intercalate ["void"]) = "void" := rfl
    simp only [resolveDecl, List.foldlM_cons, List.foldlM_nil, hkey, hvoid, hall,
      except_ok_bind, except_pure, hret, List.nil_append, Option.isNone_some]

/-- Claim C6, witness: `int f(void)` resolves to a one-argument Function and
`fu + 1` with an absent list to a zero-argument Function. -/
theorem c6_witness :
    resolveDecl 5 (.funcDecl (some [.typeDecl (.identifierType ["void"])])
        (.typeDecl (.identifierType ["int"]))) initState =
      .ok (.func [.bot none none] false (.intTy true none none) none none, initState) :=
  c6_param_lists.2 2 (.typeDecl (.identifierType ["int"])) initState
    (.intTy true none none) initState rfl rfl

theorem offsetsLoop_ok_spec (h : Heap) (fu : Nat) :
    ∀ (fields : List (String × SimTy)) (acc : Int) (os : List (String × Int)),
      offsetsLoop h fu acc fields = .ok os →
      os.map Prod.fst = fields.map Prod.fst ∧
      (∀ p, os[0]? = some p → p.2 = acc) ∧
      (∀ (i : Nat) (nm : String) (t : SimTy) (p q : String × Int),
        fields[i]? = some (nm, t) → os[i]? = some p → os[i + 1]? = some q →
        ∃ s, sizeA h fu t = .ok s ∧ q.2 = p.2 + Int.fdiv s 8) := by
  intro fields
  induction fields with
  | nil =>
      intro acc os hok
      rw [offsetsLoop] at hok
      injection hok with hok1
      subst hok1
      refine ⟨rfl, ?_, ?_⟩
      · intro p hp
        simp at hp
      · intro i nm t p q hf _ _
        simp at hf
  | cons hd rest ih =>
      intro acc os hok
      obtain ⟨nm0, t0⟩ := hd
      rw [offsetsLoop] at hok
      obtain ⟨s, hs, hin⟩ := except_bind_eq_ok.mp hok
      obtain ⟨tail, htail, hcons⟩ := except_bind_eq_ok.mp hin
      injection hcons with hc
      subst hc
      obtain ⟨ihmap, ihhead, ihadj⟩ := ih (acc + Int.fdiv s 8) tail htail
      refine ⟨?_, ?_, ?_⟩
      · simpa using ihmap
      · intro p hp
        rw [List.getElem?_cons_zero] at hp
        injection hp with hp1
        rw [← hp1]
      · intro i nm t p q hf hp hq
        cases i with
        | zero =>
            rw [List.getElem?_cons_zero] at hf hp
            rw [List.getElem?_cons_succ] at hq
            injection hf with hf1
            injection hp with hp1
            injection hf1 with hfa hfb
            subst hfb
            have hq2 := ihhead q hq
            refine ⟨s, hs, ?_⟩
            rw [← hp1, hq2]
        | succ j =>
            rw [List.getElem?_cons_succ] at hf hp hq
            exact ihadj j nm t p q hf hp hq

/-- Claim C2 (amended): for a struct whose field sizes all resolve,
`offsets()` maps the field names, in declared order, to *byte* offsets: the
first field sits at 0 and each next offset is the previous one plus the
previous field's bit size floor-divided by 8.  Offsets are therefore
nondecreasing for nonnegative sizes and strictly increasing whenever each
field is at least 8 bits wide (which is what the claimed strict
monotonicity needs), but the claimed bit-law
`offset(f_i) + size(f_i) = offset(f_{i+1})` does not hold. -/
theorem c2_offsets_byte_law :
    ∀ (h : Heap) (fu : Nat) (fields : List (String × SimTy)) (os : List (String × Int)),
      simStructOffsets h fu fields = .ok os →
      os.map Prod.fst = fields.map Prod.fst ∧
      (∀ p, os[0]? = some p → p.2 = 0) ∧
      (∀ (i : Nat) (nm : String) (t : SimTy) (p q : String × Int),
        fields[i]? = some (nm, t) → os[i]? = some p → os[i + 1]? = some q →
        ∃ s, sizeA h fu t = .ok s ∧ q.2 = p.2 + Int.fdiv s 8 ∧
          (0 ≤ s → p.2 ≤ q.2) ∧ (8 ≤ s → p.2 < q.2)) := by
  intro h fu fields os hok
  obtain ⟨hmap, hhead, hadj⟩ := offsetsLoop_ok_spec h fu fields 0 os hok
  refine ⟨hmap, hhead, ?_⟩
  intro i nm t p q hf hp hq
  obtain ⟨s, hs, heq⟩ := hadj i nm t p q hf hp hq
  have h8 : Int.fdiv s 8 = s / 8 := Int.fdiv_eq_ediv s (by decide)
  rw [h8] at heq
  refine ⟨s, hs, by rw [heq, ← h8], ?_, ?_⟩
  · intro hs0
    omega
  · intro hs8
    omega

/-- Claim C2, witness: in the two-field struct of the counterexample, the
amended law instantiates to `offset(b) = offset(a) + 32 / 8 = 4`. -/
theorem c2_witness :
    ∃ s, sizeA [] 2 (.num 32 true none none) = .ok s ∧ (4 : Int) = 0 + Int.fdiv s 8 ∧
      (0 ≤ s → (0 : Int) ≤ 4) ∧ (8 ≤ s → (0 : Int) < 4) :=
  (c2_offsets_byte_law [] 2 [("a", .num 32 true none none), ("b", .num 32 true none none)]
    [("a", 0), ("b", 4)] rfl).2.2 0 "a" (.num 32 true none none) ("a", 0) ("b", 4) rfl rfl rfl

theorem mapM_sizes_error (h : Heap) (fu : Nat) :
    ∀ (pre : List (String × SimTy)) (nm : String) (t : SimTy)
      (post : List (String × SimTy)) (e : PyErr),
      (∀ p ∈ pre, ∃ n, sizeA h fu p.2 = .ok n) →
      sizeA h fu t = .error e →
      (pre ++ (nm, t) :: post).mapM (fun p => sizeA h fu p.2) = .error e := by
  intro pre
  induction pre with
  | nil =>
      intro nm t post e _ ht
      simp only [List.nil_append, List.mapM_cons, ht, except_error_bind]
  | cons hd rest ih =>
      intro nm t post e hpre ht
      obtain ⟨n, hn⟩ := hpre hd (List.mem_cons_self hd rest)
      have hr := ih nm t post e (fun p hp => hpre p (List.mem_cons_of_mem hd hp)) ht
      simp only [List.cons_append, List.mapM_cons, hn, except_ok_bind, hr, except_error_bind]

/-- Claim C9 (amended): querying `size` on an architecture-dependent type
with no architecture bound fails with the size `ValueError` (the int family
and pointers with one message, pointer-semantics arrays — and `size_t` —
with another); a struct or union whose field sizes include an unsizable one
fails by propagating that field's own exception, which does not name the
offending field (see the counterexample). -/
theorem c9_size_undefined :
    (∀ (h : Heap) (fu : Nat) (g : Bool) (l : Option String),
      sizeA h (fu + 1) (.intTy g l none) = .error (.valueError noArchMsg) ∧
      sizeA h (fu + 1) (.short g l none) = .error (.valueError noArchMsg) ∧
      sizeA h (fu + 1) (.long g l none) = .error (.valueError noArchMsg) ∧
      sizeA h (fu + 1) (.longlong g l none) = .error (.valueError noArchMsg)) ∧
    (∀ (h : Heap) (fu : Nat) (p : SimTy) (off : Int) (l : Option String),
      sizeA h (fu + 1) (.pointer p off l none) = .error (.valueError noArchMsg)) ∧
    (∀ (h : Heap) (fu : Nat) (e : SimTy) (len : Option Int) (l : Option String),
      sizeA h (fu + 1) (.arrayTy e len l none) = .error (.valueError noArchMsgI)) ∧
    (∀ (h : Heap) (fu : Nat) (r : Nat) (oa : Option Arch) (obj : StructObj)
        (pre post : List (String × SimTy)) (nm : String) (t : SimTy) (e : PyErr),
      h.get? r = some obj →
      obj.fields = pre ++ (nm, t) :: post →
      (∀ p ∈ pre, ∃ n, sizeA h fu p.2 = .ok n) →
      sizeA h fu t = .error e →
      sizeA h (fu + 1) (.structRef r oa) = .error e) ∧
    (∀ (h : Heap) (fu : Nat) (pre post : List (String × SimTy)) (l : Option String)
        (oa : Option Arch) (nm : String) (t : SimTy) (e : PyErr),
      (∀ p ∈ pre, ∃ n, sizeA h fu p.2 = .ok n) →
      sizeA h fu t = .error e →
      sizeA h (fu + 1) (.union (pre ++ (nm, t) :: post) l oa) = .error e) := by
  refine ⟨fun _ _ _ _ => ⟨rfl, rfl, rfl, rfl⟩, fun _ _ _ _ _ => rfl, fun _ _ _ _ _ => rfl,
    ?_, ?_⟩
  · intro h fu r oa obj pre post nm t e hget hfields hpre ht
    have hm := mapM_sizes_error h fu pre nm t post e hpre ht
    simp only [sizeA, hget, hfields, hm, except_error_bind]
  · intro h fu pre post l oa nm t e hpre ht
    have hm := mapM_sizes_error h fu pre nm t post e hpre ht
    simp only [sizeA, hm, except_error_bind]

/-- Claim C9, witness: the one-field struct `{x: int}` with no architecture
bound fails its size query with the propagated no-arch `ValueError`. -/
theorem c9_witness :
    sizeA [⟨none, [("x", SimTy.intTy true none none)]⟩] 2 (.structRef 0 none) =
      .error (.valueError noArchMsg) :=
  c9_size_undefined.2.2.2.1 [⟨none, [("x", .intTy true none none)]⟩] 1 0 none
    ⟨none, [("x", .intTy true none none)]⟩ [] [] "x" (.intTy true none none)
    (.valueError noArchMsg) rfl rfl (fun p hp => absurd hp (List.not_mem_nil p)) rfl

theorem withArch_args_heap_ext (fu : Nat) (a : Arch)
    (ih : ∀ (h : Heap) (t t1 : SimTy) (h1 : Heap),
      withArchH fu a h t = .ok (t1, h1) → ∃ ext, h1 = h ++ ext) :
    ∀ (l acc : List SimTy) (h0 : Heap) (res1 : List SimTy) (resh : Heap),
      l.foldlM (fun (ac : List SimTy × Heap) x => do
          let (x1, h2) ← withArchH fu a ac.2 x
          Except.ok (ac.1 ++ [x1], h2)) (acc, h0) = .ok (res1, resh) →
      ∃ ext, resh = h0 ++ ext := by
  intro l
  induction l with
  | nil =>
      intro acc h0 res1 resh hok
      rw [List.foldlM_nil, except_pure] at hok
      injection hok with hok1
      injection hok1 with hok2 hok3
      exact ⟨[], by rw [← hok3]; simp⟩
  | cons x xs ihl =>
      intro acc h0 res1 resh hok
      rw [List.foldlM_cons] at hok
      obtain ⟨y, hy, hrest⟩ := except_bind_eq_ok.mp hok
      obtain ⟨z, hz, hyz⟩ := except_bind_eq_ok.mp hy
      obtain ⟨v1, h2⟩ := z
      injection hyz with hyz1
      obtain ⟨e1, he1⟩ := ih h0 x v1 h2 hz
      rw [← hyz1] at hrest
      obtain ⟨e2, he2⟩ := ihl (acc ++ [v1]) h2 res1 resh hrest
      exact ⟨e1 ++ e2, by rw [he2, he1, List.append_assoc]⟩

theorem withArch_fields_heap_ext (fu : Nat) (a : Arch)
    (ih : ∀ (h : Heap) (t t1 : SimTy) (h1 : Heap),
      withArchH fu a h t = .ok (t1, h1) → ∃ ext, h1 = h ++ ext) :
    ∀ (l acc : List (String × SimTy)) (h0 : Heap) (res1 : List (String × SimTy)) (resh : Heap),
      l.foldlM (fun (ac : List (String × SimTy) × Heap) p => do
          let (v1, h2) ← withArchH fu a ac.2 p.2
          Except.ok (ac.1 ++ [(p.1, v1)], h2)) (acc, h0) = .ok (res1, resh) →
      ∃ ext, resh = h0 ++ ext := by
  intro l
  induction l with
  | nil =>
      intro acc h0 res1 resh hok
      rw [List.foldlM_nil, except_pure] at hok
      injection hok with hok1
      injection hok1 with hok2 hok3
      exact ⟨[], by rw [← hok3]; simp⟩
  | cons x xs ihl =>
      intro acc h0 res1 resh hok
      rw [List.foldlM_cons] at hok
      obtain ⟨y, hy, hrest⟩ := except_bind_eq_ok.mp hok
      obtain ⟨z, hz, hyz⟩ := except_bind_eq_ok.mp hy
      obtain ⟨v1, h2⟩ := z
      injection hyz with hyz1
      obtain ⟨e1, he1⟩ := ih h0 x.2 v1 h2 hz
      rw [← hyz1] at hrest
      obtain ⟨e2, he2⟩ := ihl (acc ++ [(x.1, v1)]) h2 res1 resh hrest
      exact ⟨e1 ++ e2, by rw [he2, he1, List.append_assoc]⟩

theorem withArch_heap_ext (a : Arch) :
    ∀ (fu : Nat) (h : Heap) (t t1 : SimTy) (h1 : Heap),
      withArchH fu a h t = .ok (t1, h1) → ∃ ext, h1 = h ++ ext := by
  intro fu
  induction fu with
  | zero =>
      intro h t t1 h1 hok
      rw [show withArchH 0 a h t = .error .recursionError from rfl] at hok
      exact Except.noConfusion hok
  | succ fu ih =>
      intro h t t1 h1 hok
      rw [withArchH.eq_def] at hok
      simp only [] at hok
      by_cases harch : archOf t = some a
      · rw [if_pos harch] at hok
        injection hok with hp
        injection hp with hpa hpb
        exact ⟨[], by rw [← hpb]; simp⟩
      · rw [if_neg harch] at hok
        cases t with
        | pointer p off l oa =>
            simp only [] at hok
            obtain ⟨z, hz, hfin⟩ := except_bind_eq_ok.mp hok
            obtain ⟨p1, h2⟩ := z
            injection hfin with hf
            injection hf with hfa hfb
            obtain ⟨e1, he1⟩ := ih h p p1 h2 hz
            exact ⟨e1, by rw [← hfb]; exact he1⟩
        | fixedArray e len oa =>
            simp only [] at hok
            obtain ⟨z, hz, hfin⟩ := except_bind_eq_ok.mp hok
            obtain ⟨e1t, h2⟩ := z
            injection hfin with hf
            injection hf with hfa hfb
            obtain ⟨e1, he1⟩ := ih h e e1t h2 hz
            exact ⟨e1, by rw [← hfb]; exact he1⟩
        | arrayTy e len l oa =>
            simp only [] at hok
            obtain ⟨z, hz, hfin⟩ := except_bind_eq_ok.mp hok
            obtain ⟨e1t, h2⟩ := z
            injection hfin with hf
            injection hf with hfa hfb
            obtain ⟨e1, he1⟩ := ih h e e1t h2 hz
            exact ⟨e1, by rw [← hfb]; exact he1⟩
        | func args tup ret l oa =>
            simp only [] at hok
            obtain ⟨zA, hA, hrest⟩ := except_bind_eq_ok.mp hok
            obtain ⟨args1, hArgs⟩ := zA
            obtain ⟨eA, heA⟩ := withArch_args_heap_ext fu a ih args [] h args1 hArgs hA
            obtain ⟨zR, hR, hfin⟩ := except_bind_eq_ok.mp hrest
            obtain ⟨ret1, h2⟩ := zR
            injection hfin with hf
            injection hf with hfa hfb
            obtain ⟨eR, heR⟩ := ih hArgs ret ret1 h2 hR
            exact ⟨eA ++ eR, by rw [← hfb, heR, heA, List.append_assoc]⟩
        | structRef r oa =>
            simp only [] at hok
            cases hget : h.get? r with
            | none =>
                rw [hget] at hok
                exact Except.noConfusion hok
            | some obj =>
                rw [hget] at hok
                obtain ⟨zF, hF, hfin⟩ := except_bind_eq_ok.mp hok
                obtain ⟨fs1, h2⟩ := zF
                injection hfin with hf
                injection hf with hfa hfb
                obtain ⟨eF, heF⟩ :=
                  withArch_fields_heap_ext fu a ih obj.fields [] h fs1 h2 hF
                exact ⟨eF ++ [⟨obj.name, fs1⟩], by rw [← hfb, heF, List.append_assoc]⟩
        | union ms l oa =>
            simp only [] at hok
            obtain ⟨zF, hF, hfin⟩ := except_bind_eq_ok.mp hok
            obtain ⟨ms1, h2⟩ := zF
            injection hfin with hf
            injection hf with hfa hfb
            obtain ⟨eF, heF⟩ := withArch_fields_heap_ext fu a ih ms [] h ms1 h2 hF
            exact ⟨eF, by rw [← hfb]; exact heF⟩
        | bot l oa =>
            simp only [] at hok
            injection hok with hp
            injection hp with hpa hpb
            exact ⟨[], by rw [← hpb]; simp⟩
        | top s l oa =>
            simp only [] at hok
            injection hok with hp
            injection hp with hpa hpb
            exact ⟨[], by rw [← hpb]; simp⟩
        | reg s l oa =>
            simp only [] at hok
            injection hok with hp
            injection hp with hpa hpb
            exact ⟨[], by rw [← hpb]; simp⟩
        | num s g l oa =>
            simp only [] at hok
            injection hok with hp
            injection hp with hpa hpb
            exact ⟨[], by rw [← hpb]; simp⟩
        | intTy g l oa =>
            simp only [] at hok
            injection hok with hp
            injection hp with hpa hpb
            exact ⟨[], by rw [← hpb]; simp⟩
        | short g l oa =>
            simp only [] at hok
            injection hok with hp
            injection hp with hpa hpb
            exact ⟨[], by rw [← hpb]; simp⟩
        | long g l oa =>
            simp only [] at hok
            injection hok with hp
            injection hp with hpa hpb
            exact ⟨[], by rw [← hpb]; simp⟩
        | longlong g l oa =>
            simp only [] at hok
            injection hok with hp
            injection hp with hpa hpb
            exact ⟨[], by rw [← hpb]; simp⟩
        | char l oa =>
            simp only [] at hok
            injection hok with hp
            injection hp with hpa hpb
            exact ⟨[], by rw [← hpb]; simp⟩
        | boolTy l oa =>
            simp only [] at hok
            injection hok with hp
            injection hp with hpa hpb
            exact ⟨[], by rw [← hpb]; simp⟩
        | fd l oa =>
            simp only [] at hok
            injection hok with hp
            injection hp with hpa hpb
            exact ⟨[], by rw [← hpb]; simp⟩
        | stringTy len l oa =>
            simp only [] at hok
            injection hok with hp
            injection hp with hpa hpb
            exact ⟨[], by rw [← hpb]; simp⟩
        | lengthTy g l oa =>
            simp only [] at hok
            injection hok with hp
            injection hp with hpa hpb
            exact ⟨[], by rw [← hpb]; simp⟩
        | floatTy s oa =>
            simp only [] at hok
            injection hok with hp
            injection hp with hpa hpb
            exact ⟨[], by rw [← hpb]; simp⟩
        | doubleTy oa =>
            simp only [] at hok
            injection hok with hp
            injection hp with hpa hpb
            exact ⟨[], by rw [← hpb]; simp⟩

/-- Claim C8 (amended): `with_arch` is idempotent — a value already bound to
the requested architecture is returned itself, heap untouched — and pure:
whenever it succeeds, the original heap is only ever appended to, so every
struct object existing before the call is unchanged.  Every variant except
CString yields a result carrying the requested architecture (children bound
recursively); CString's `with_arch` returns the value itself unchanged,
recording no architecture. -/
theorem c8_with_arch :
    (∀ (fu : Nat) (a : Arch) (h : Heap) (t : SimTy),
      archOf t = some a → withArchH (fu + 1) a h t = .ok (t, h)) ∧
    (∀ (fu : Nat) (a : Arch) (h : Heap) (t t1 : SimTy) (h1 : Heap),
      withArchH fu a h t = .ok (t1, h1) → ∃ ext, h1 = h ++ ext) ∧
    (∀ (fu : Nat) (a : Arch) (h : Heap) (len : Option Int) (l : Option String)
        (oa : Option Arch),
      withArchH (fu + 1) a h (.stringTy len l oa) = .ok (.stringTy len l oa, h)) ∧
    (∀ (fu : Nat) (a : Arch) (h : Heap) (t t1 : SimTy) (h1 : Heap),
      isStringTy t = false →
      withArchH fu a h t = .ok (t1, h1) → archOf t1 = some a) := by
  refine ⟨?_, ?_, ?_, ?_⟩
  · intro fu a h t harch
    simp [withArchH, harch]
  · intro fu a
    exact withArch_heap_ext a fu
  · intro fu a h len l oa
    by_cases hc : oa = some a
    · subst hc
      simp [withArchH, archOf]
    · simp [withArchH, archOf, hc]
  · intro fu a h t t1 h1 hstr hok
    cases fu with
    | zero =>
        rw [show withArchH 0 a h t = .error .recursionError from rfl] at hok
        exact Except.noConfusion hok
    | succ fu =>
        rw [withArchH.eq_def] at hok
        simp only [] at hok
        by_cases harch : archOf t = some a
        · rw [if_pos harch] at hok
          injection hok with hp
          injection hp with hpa hpb
          rw [← hpa]
          exact harch
        · rw [if_neg harch] at hok
          cases t with
          | stringTy len l oa =>
              simp [isStringTy] at hstr
          | pointer p off l oa =>
              simp only [] at hok
              obtain ⟨z, hz, hfin⟩ := except_bind_eq_ok.mp hok
              obtain ⟨p1, h2⟩ := z
              injection hfin with hf
              injection hf with hfa hfb
              rw [← hfa]
              rfl
          | fixedArray e len oa =>
              simp only [] at hok
              obtain ⟨z, hz, hfin⟩ := except_bind_eq_ok.mp hok
              obtain ⟨e1, h2⟩ := z
              injection hfin with hf
              injection hf with hfa hfb
              rw [← hfa]
              rfl
          | arrayTy e len l oa =>
              simp only [] at hok
              obtain ⟨z, hz, hfin⟩ := except_bind_eq_ok.mp hok
              obtain ⟨e1, h2⟩ := z
              injection hfin with hf
              injection hf with hfa hfb
              rw [← hfa]
              rfl
          | func args tup ret l oa =>
              simp only [] at hok
              obtain ⟨zA, hA, hrest⟩ := except_bind_eq_ok.mp hok
              obtain ⟨args1, hArgs⟩ := zA
              obtain ⟨zR, hR, hfin⟩ := except_bind_eq_ok.mp hrest
              obtain ⟨ret1, h2⟩ := zR
              injection hfin with hf
              injection hf with hfa hfb
              rw [← hfa]
              rfl
          | structRef r oa =>
              simp only [] at hok
              cases hget : h.get? r with
              | none =>
                  rw [hget] at hok
                  exact Except.noConfusion hok
              | some obj =>
                  rw [hget] at hok
                  obtain ⟨zF, hF, hfin⟩ := except_bind_eq_ok.mp hok
                  obtain ⟨fs1, h2⟩ := zF
                  injection hfin with hf
                  injection hf with hfa hfb
                  rw [← hfa]
                  rfl
          | union ms l oa =>
              simp only [] at hok
              obtain ⟨zF, hF, hfin⟩ := except_bind_eq_ok.mp hok
              obtain ⟨ms1, h2⟩ := zF
              injection hfin with hf
              injection hf with hfa hfb
              rw [← hfa]
              rfl
          | bot l oa =>
              simp only [] at hok
              injection hok with hp
              injection hp with hpa hpb
              rw [← hpa]
              rfl
          | top s l oa =>
              simp only [] at hok
              injection hok with hp
              injection hp with hpa hpb
              rw [← hpa]
              rfl
          | reg s l oa =>
              simp only [] at hok
              injection hok with hp
              injection hp with hpa hpb
              rw [← hpa]
              rfl
          | num s g l oa =>
              simp only [] at hok
              injection hok with hp
              injection hp with hpa hpb
              rw [← hpa]
              rfl
          | intTy g l oa =>
              simp only [] at hok
              injection hok with hp
              injection hp with hpa hpb
              rw [← hpa]
              rfl
          | short g l oa =>
              simp only [] at hok
              injection hok with hp
              injection hp with hpa hpb
              rw [← hpa]
              rfl
          | long g l oa =>
              simp only [] at hok
              injection hok with hp
              injection hp with hpa hpb
              rw [← hpa]
              rfl
          | longlong g l oa =>
              simp only [] at hok
              injection hok with hp
              injection hp with hpa hpb
              rw [← hpa]
              rfl
          | char l oa =>
              simp only [] at hok
              injection hok with hp
              injection hp with hpa hpb
              rw [← hpa]
              rfl
          | boolTy l oa =>
              simp only [] at hok
              injection hok with hp
              injection hp with hpa hpb
              rw [← hpa]
              rfl
          | fd l oa =>
              simp only [] at hok
              injection hok with hp
              injection hp with hpa hpb
              rw [← hpa]
              rfl
          | lengthTy g l oa =>
              simp only [] at hok
              injection hok with hp
              injection hp with hpa hpb
              rw [← hpa]
              rfl
          | floatTy s oa =>
              simp only [] at hok
              injection hok with hp
              injection hp with hpa hpb
              rw [← hpa]
              rfl
          | doubleTy oa =>
              simp only [] at hok
              injection hok with hp
              injection hp with hpa hpb
              rw [← hpa]
              rfl

/-- Claim C8, witness: binding an already-bound `int` returns it unchanged
(idempotence); binding an unbound struct on a one-object heap only appends
to the heap, leaving the original object in place; and the non-string
result carries the architecture. -/
theorem c8_witness :
    withArchH 3 amd64 [] (.intTy true none (some amd64)) =
      .ok (.intTy true none (some amd64), []) ∧
    (∃ ext, ([⟨some "T", [("x", SimTy.num 8 true none none)]⟩,
        ⟨some "T", [("x", SimTy.num 8 true none (some amd64))]⟩] : Heap) =
      [⟨some "T", [("x", SimTy.num 8 true none none)]⟩] ++ ext) ∧
    archOf (.structRef 1 (some amd64)) = some amd64 := by
  refine ⟨c8_with_arch.1 2 amd64 [] (.intTy true none (some amd64)) rfl, ?_, ?_⟩
  · exact c8_with_arch.2.1 3 amd64 [⟨some "T", [("x", .num 8 true none none)]⟩]
      (.structRef 0 none) (.structRef 1 (some amd64))
      [⟨some "T", [("x", .num 8 true none none)]⟩,
       ⟨some "T", [("x", .num 8 true none (some amd64))]⟩] rfl
  · exact c8_with_arch.2.2.2 3 amd64 [⟨some "T", [("x", .num 8 true none none)]⟩]
      (.structRef 0 none) (.structRef 1 (some amd64))
      [⟨some "T", [("x", .num 8 true none none)]⟩,
       ⟨some "T", [("x", .num 8 true none (some amd64))]⟩] rfl rfl

theorem option_some_bind {α β : Type} (a : α) (f : α → Option β) :
    ((some a : Option α) >>= f) = f a := rfl

theorem option_none_bind {α β : Type} (f : α → Option β) :
    ((none : Option α) >>= f) = none := rfl

theorem bind2_iff (pl pr : Except PyErr Int) (sl sr : Option Int)
    (hl : ∀ w, pl = .ok w ↔ sl = some w) (hr : ∀ w, pr = .ok w ↔ sr = some w)
    (f : Int → Int → Except PyErr Int) (g : Int → Int → Option Int)
    (hfg : ∀ x y v, f x y = .ok v ↔ g x y = some v) :
    ∀ v, (do let a ← pl; let b ← pr; f a b) = .ok v ↔
      (do let a ← sl; let b ← sr; g a b) = some v := by
  intro v
  cases pl with
  | error e =>
      have hsl : sl = none := by
        cases hsl : sl with
        | none => rfl
        | some w => exact absurd ((hl w).mpr hsl) (by simp)
      rw [except_error_bind, hsl, option_none_bind]
      simp
  | ok x =>
      have hslx : sl = some x := (hl x).mp rfl
      rw [except_ok_bind, hslx, option_some_bind]
      cases pr with
      | error e =>
          have hsr : sr = none := by
            cases hsr : sr with
            | none => rfl
            | some w => exact absurd ((hr w).mpr hsr) (by simp)
          rw [except_error_bind, hsr, option_none_bind]
          simp
      | ok y =>
          have hsry : sr = some y := (hr y).mp rfl
          rw [except_ok_bind, hsry, option_some_bind]
          exact hfg x y v

theorem parseConst_ok_iff_specFold :
    ∀ (e : CExpr) (v : Int), parseConst e = .ok v ↔ specFold e = some v := by
  intro e
  induction e with
  | const s =>
      intro v
      show intLiteral s = .ok v ↔ pyInt s = some v
      cases hp : pyInt s with
      | some n => simp [intLiteral, hp]
      | none => simp [intLiteral, hp]
  | binop op l r ihl ihr =>
      intro v
      by_cases h1 : op = "+"
      · subst h1
        rw [show parseConst (.binop "+" l r) =
              (do let a ← parseConst l; let b ← parseConst r; Except.ok (a + b)) from rfl,
            show specFold (.binop "+" l r) =
              (do let a ← specFold l; let b ← specFold r; some (a + b)) from rfl]
        exact bind2_iff _ _ _ _ ihl ihr _ _ (fun x y w => by simp) v
      · by_cases h2 : op = "-"
        · subst h2
          rw [show parseConst (.binop "-" l r) =
                (do let a ← parseConst l; let b ← parseConst r; Except.ok (a - b)) from rfl,
              show specFold (.binop "-" l r) =
                (do let a ← specFold l; let b ← specFold r; some (a - b)) from rfl]
          exact bind2_iff _ _ _ _ ihl ihr _ _ (fun x y w => by simp) v
        · by_cases h3 : op = "*"
          · subst h3
            rw [show parseConst (.binop "*" l r) =
                  (do let a ← parseConst l; let b ← parseConst r; Except.ok (a * b)) from rfl,
                show specFold (.binop "*" l r) =
                  (do let a ← specFold l; let b ← specFold r; some (a * b)) from rfl]
            exact bind2_iff _ _ _ _ ihl ihr _ _ (fun x y w => by simp) v
          · by_cases h4 : op = "/"
            · subst h4
              rw [show parseConst (.binop "/" l r) =
                    (do let a ← parseConst l; let b ← parseConst r;
                        if b = 0 then Except.error .zeroDivisionError
                        else Except.ok (Int.fdiv a b)) from rfl,
                  show specFold (.binop "/" l r) =
                    (do let a ← specFold l; let b ← specFold r;
                        if b = 0 then none else some (Int.fdiv a b)) from rfl]
              refine bind2_iff _ _ _ _ ihl ihr _ _ (fun x y w => ?_) v
              by_cases hy : y = 0 <;> simp [hy]
            · have hpc : parseConst (.binop op l r) =
                  .error (.valueError ("Binary op " ++ op)) := by
                simp [parseConst, h1, h2, h3, h4]
              have hsf : specFold (.binop op l r) = none := by
                simp [specFold, h1, h2, h3, h4]
              rw [hpc, hsf]
              simp
  | other =>
      intro v
      have h5 : parseConst CExpr.other =
          Except.error (PyErr.valueError "unsupported constant expression node") := rfl
      have h6 : specFold CExpr.other = none := rfl
      rw [h5, h6]
      simp

/-- Claim C5 (amended): on the supported constant-expression fragment —
integer literals combined with binary `+ - * /` — the folder computes the
exact value given by the evaluator with *floor* division (Python 2 `//`),
agreeing with it case for case; in particular the dimension `2+3*4` folds
to 14.  (The claimed truncation toward zero is what the counterexample
refutes.) -/
theorem c5_fold_floor :
    (∀ (e : CExpr) (v : Int), parseConst e = .ok v ↔ specFold e = some v) ∧
    parseConst (.binop "+" (.const "2") (.binop "*" (.const "3") (.const "4"))) = .ok 14 :=
  ⟨parseConst_ok_iff_specFold, rfl⟩

/-- Claim C5, witness: the equivalence applied to the concrete dimension
`2+3*4` and value 14. -/
theorem c5_witness :
    specFold (.binop "+" (.const "2") (.binop "*" (.const "3") (.const "4"))) = some 14 :=
  (c5_fold_floor.1 (.binop "+" (.const "2") (.binop "*" (.const "3") (.const "4"))) 14).mp rfl

theorem forIn_tyEq_true (h : Heap) (fu : Nat) :
    ∀ (ps : List (SimTy × SimTy)) (b0 : Bool),
      forIn ps b0 (fun p _ => do
        let b ← tyEq h fu p.1 p.2
        if b then Except.ok (ForInStep.yield true)
        else Except.ok (ForInStep.done false)) = .ok true →
      ∀ p ∈ ps, tyEq h fu p.1 p.2 = .ok true := by
  intro ps
  induction ps with
  | nil =>
      intro b0 _ p hp
      exact absurd hp (List.not_mem_nil p)
  | cons q qs ih =>
      intro b0 hok p hp
      rw [List.forIn_cons] at hok
      obtain ⟨s, hs, hcont⟩ := except_bind_eq_ok.mp hok
      obtain ⟨b, hb, hbs⟩ := except_bind_eq_ok.mp hs
      cases b with
      | false =>
          have hbs2 : (Except.ok (ForInStep.done false) :
              Except PyErr (ForInStep Bool)) = .ok s := hbs
          injection hbs2 with hbs3
          rw [← hbs3] at hcont
          have hcont2 : (Except.ok false : Except PyErr Bool) = .ok true := hcont
          exact Bool.noConfusion (Except.ok.inj hcont2)
      | true =>
          have hbs2 : (Except.ok (ForInStep.yield true) :
              Except PyErr (ForInStep Bool)) = .ok s := hbs
          injection hbs2 with hbs3
          rw [← hbs3] at hcont
          have hcont2 : forIn qs true (fun p _ => do
              let b ← tyEq h fu p.1 p.2
              if b then Except.ok (ForInStep.yield true)
              else Except.ok (ForInStep.done false)) = .ok true := hcont
          rcases List.mem_cons.mp hp with hpq | hpqs
          · rw [hpq]
            exact hb
          · exact ih true hcont2 p hpqs

theorem mapM_tyHash_congr (h : Heap) (fu : Nat) :
    ∀ (as1 as2 : List SimTy), as1.length = as2.length →
      (∀ p ∈ as1.zip as2, tyHash h fu p.1 = tyHash h fu p.2) →
      as1.mapM (fun x => tyHash h fu x) = as2.mapM (fun x => tyHash h fu x) := by
  intro as1
  induction as1 with
  | nil =>
      intro as2 hlen _
      cases as2 with
      | nil => rfl
      | cons b bs => exact absurd hlen (by simp)
  | cons a as ih =>
      intro as2 hlen hp
      cases as2 with
      | nil => exact absurd hlen (by simp)
      | cons b bs =>
          have hhd : tyHash h fu a = tyHash h fu b :=
            hp (a, b) (by rw [List.zip_cons_cons]; exact List.mem_cons_self (a, b) (as.zip bs))
          have htl := ih bs (by simpa using hlen)
            (fun q hq => hp q (by rw [List.zip_cons_cons]; exact List.mem_cons_of_mem (a, b) hq))
          rw [List.mapM_cons, List.mapM_cons, hhd, htl]

theorem tyEq_true_hash_eq (h : Heap) :
    ∀ (fu : Nat) (x y : SimTy), tyEq h fu x y = .ok true → tyHash h fu x = tyHash h fu y := by
  intro fu
  induction fu with
  | zero =>
      intro x y hab
      exact Except.noConfusion
        (show (Except.error PyErr.recursionError : Except PyErr Bool) = .ok true from hab)
  | succ fu ih =>
      intro x y hab
      cases x with
      | bot l1 o1 =>
          cases y <;> first | rfl | exact Bool.noConfusion (Except.ok.inj hab)
      | top s1 l1 o1 =>
          cases y
          all_goals first | rfl | exact Bool.noConfusion (Except.ok.inj hab) | skip
          rename_i s2 l2 o2
          have hs : s1 = s2 := of_decide_eq_true (Except.ok.inj hab)
          subst hs
          rfl
      | reg s1 l1 o1 =>
          cases y
          all_goals first | rfl | exact Bool.noConfusion (Except.ok.inj hab) | skip
          rename_i s2 l2 o2
          have hs : s1 = s2 := of_decide_eq_true (Except.ok.inj hab)
          subst hs
          rfl
      | num s1 g1 l1 o1 =>
          cases y
          all_goals first | rfl | exact Bool.noConfusion (Except.ok.inj hab) | skip
          rename_i s2 g2 l2 o2
          obtain ⟨hg, hs⟩ := of_decide_eq_true (Except.ok.inj hab)
          subst hg
          subst hs
          rfl
      | intTy g1 l1 o1 =>
          cases y
          all_goals first | rfl | exact Bool.noConfusion (Except.ok.inj hab) | skip
          rename_i g2 l2 o2
          obtain ⟨s1, hs1, hrest⟩ := except_bind_eq_ok.mp hab
          obtain ⟨s2, hs2, hif⟩ := except_bind_eq_ok.mp hrest
          have hif2 : (if s1 ≠ s2 then (Except.ok false : Except PyErr Bool)
              else .ok (decide (g1 = g2))) = .ok true := hif
          by_cases hss : s1 ≠ s2
          · rw [if_pos hss] at hif2
            exact Bool.noConfusion (Except.ok.inj hif2)
          · rw [if_neg hss] at hif2
            have hg : g1 = g2 := of_decide_eq_true (Except.ok.inj hif2)
            have hseq : s1 = s2 := not_not.mp hss
            subst hg
            rw [show tyHash h (fu + 1) (SimTy.intTy g1 l1 o1) =
                  (do
                    let s ← intFamilySize "int" o1
                    Except.ok (113 ^^^ s.natAbs ^^^ boolHash g1)) from rfl,
                show tyHash h (fu + 1) (SimTy.intTy g1 l2 o2) =
                  (do
                    let s ← intFamilySize "int" o2
                    Except.ok (113 ^^^ s.natAbs ^^^ boolHash g1)) from rfl,
                hs1, hs2, except_ok_bind, except_ok_bind, hseq]
      | short g1 l1 o1 =>
          cases y
          all_goals first | rfl | exact Bool.noConfusion (Except.ok.inj hab) | skip
          rename_i g2 l2 o2
          obtain ⟨s1, hs1, hrest⟩ := except_bind_eq_ok.mp hab
          obtain ⟨s2, hs2, hif⟩ := except_bind_eq_ok.mp hrest
          have hif2 : (if s1 ≠ s2 then (Except.ok false : Except PyErr Bool)
              else .ok (decide (g1 = g2))) = .ok true := hif
          by_cases hss : s1 ≠ s2
          · rw [if_pos hss] at hif2
            exact Bool.noConfusion (Except.ok.inj hif2)
          · rw [if_neg hss] at hif2
            have hg : g1 = g2 := of_decide_eq_true (Except.ok.inj hif2)
            have hseq : s1 = s2 := not_not.mp hss
            subst hg
            rw [show tyHash h (fu + 1) (SimTy.short g1 l1 o1) =
                  (do
                    let s ← intFamilySize "short" o1
                    Except.ok (127 ^^^ s.natAbs ^^^ boolHash g1)) from rfl,
                show tyHash h (fu + 1) (SimTy.short g1 l2 o2) =
                  (do
                    let s ← intFamilySize "short" o2
                    Except.ok (127 ^^^ s.natAbs ^^^ boolHash g1)) from rfl,
                hs1, hs2, except_ok_bind, except_ok_bind, hseq]
      | long g1 l1 o1 =>
          cases y
          all_goals first | rfl | exact Bool.noConfusion (Except.ok.inj hab) | skip
          rename_i g2 l2 o2
          obtain ⟨s1, hs1, hrest⟩ := except_bind_eq_ok.mp hab
          obtain ⟨s2, hs2, hif⟩ := except_bind_eq_ok.mp hrest
          have hif2 : (if s1 ≠ s2 then (Except.ok false : Except PyErr Bool)
              else .ok (decide (g1 = g2))) = .ok true := hif
          by_cases hss : s1 ≠ s2
          · rw [if_pos hss] at hif2
            exact Bool.noConfusion (Except.ok.inj hif2)
          · rw [if_neg hss] at hif2
            have hg : g1 = g2 := of_decide_eq_true (Except.ok.inj hif2)
            have hseq : s1 = s2 := not_not.mp hss
            subst hg
            rw [show tyHash h (fu + 1) (SimTy.long g1 l1 o1) =
                  (do
                    let s ← intFamilySize "long" o1
                    Except.ok (131 ^^^ s.natAbs ^^^ boolHash g1)) from rfl,
                show tyHash h (fu + 1) (SimTy.long g1 l2 o2) =
                  (do
                    let s ← intFamilySize "long" o2
                    Except.ok (131 ^^^ s.natAbs ^^^ boolHash g1)) from rfl,
                hs1, hs2, except_ok_bind, except_ok_bind, hseq]
      | longlong g1 l1 o1 =>
          cases y
          all_goals first | rfl | exact Bool.noConfusion (Except.ok.inj hab) | skip
          rename_i g2 l2 o2
          obtain ⟨s1, hs1, hrest⟩ := except_bind_eq_ok.mp hab
          obtain ⟨s2, hs2, hif⟩ := except_bind_eq_ok.mp hrest
          have hif2 : (if s1 ≠ s2 then (Except.ok false : Except PyErr Bool)
              else .ok (decide (g1 = g2))) = .ok true := hif
          by_cases hss : s1 ≠ s2
          · rw [if_pos hss] at hif2
            exact Bool.noConfusion (Except.ok.inj hif2)
          · rw [if_neg hss] at hif2
            have hg : g1 = g2 := of_decide_eq_true (Except.ok.inj hif2)
            have hseq : s1 = s2 := not_not.mp hss
            subst hg
            rw [show tyHash h (fu + 1) (SimTy.longlong g1 l1 o1) =
                  (do
                    let s ← intFamilySize "long long" o1
                    Except.ok (137 ^^^ s.natAbs ^^^ boolHash g1)) from rfl,
                show tyHash h (fu + 1) (SimTy.longlong g1 l2 o2) =
                  (do
                    let s ← intFamilySize "long long" o2
                    Except.ok (137 ^^^ s.natAbs ^^^ boolHash g1)) from rfl,
                hs1, hs2, except_ok_bind, except_ok_bind, hseq]
      | char l1 o1 =>
          cases y <;> first | rfl | exact Bool.noConfusion (Except.ok.inj hab)
      | boolTy l1 o1 =>
          cases y <;> first | rfl | exact Bool.noConfusion (Except.ok.inj hab)
      | fd l1 o1 =>
          cases y <;> first | rfl | exact Bool.noConfusion (Except.ok.inj hab)
      | pointer p1 off1 l1 o1 =>
          cases y
          all_goals first | rfl | exact Bool.noConfusion (Except.ok.inj hab) | skip
          rename_i p2 off2 l2 o2
          obtain ⟨s1, hs1, hrest⟩ := except_bind_eq_ok.mp hab
          obtain ⟨s2, hs2, hif⟩ := except_bind_eq_ok.mp hrest
          have hif2 : (if s1 ≠ s2 then (Except.ok false : Except PyErr Bool)
              else tyEq h fu p1 p2) = .ok true := hif
          by_cases hss : s1 ≠ s2
          · rw [if_pos hss] at hif2
            exact Bool.noConfusion (Except.ok.inj hif2)
          · rw [if_neg hss] at hif2
            have hseq : s1 = s2 := not_not.mp hss
            have hrec := ih p1 p2 hif2
            rw [show tyHash h (fu + 1) (SimTy.pointer p1 off1 l1 o1) =
                  (do
                    let s ← pointerSize o1
                    let hp ← tyHash h fu p1
                    Except.ok (157 ^^^ s.natAbs ^^^ hp)) from rfl,
                show tyHash h (fu + 1) (SimTy.pointer p2 off2 l2 o2) =
                  (do
                    let s ← pointerSize o2
                    let hp ← tyHash h fu p2
                    Except.ok (157 ^^^ s.natAbs ^^^ hp)) from rfl,
                hs1, hs2, except_ok_bind, except_ok_bind, hseq, hrec]
      | fixedArray e1 len1 o1 =>
          cases y <;> first | rfl | exact Bool.noConfusion (Except.ok.inj hab)
      | arrayTy e1 len1 l1 o1 =>
          cases y
          all_goals first | rfl | exact Bool.noConfusion (Except.ok.inj hab) | skip
          rename_i e2 len2 l2 o2
          obtain ⟨b, hb, hif⟩ := except_bind_eq_ok.mp hab
          have hif2 : (if b then (Except.ok (decide (len1 = len2)) : Except PyErr Bool)
              else .ok false) = .ok true := hif
          cases b with
          | false => exact Bool.noConfusion (Except.ok.inj hif2)
          | true =>
              have hl : len1 = len2 := of_decide_eq_true (Except.ok.inj hif2)
              have hrec := ih e1 e2 hb
              subst hl
              rw [show tyHash h (fu + 1) (SimTy.arrayTy e1 len1 l1 o1) =
                    (do
                      let he ← tyHash h fu e1
                      Except.ok (167 ^^^ he ^^^ optIntHash len1)) from rfl,
                  show tyHash h (fu + 1) (SimTy.arrayTy e2 len1 l2 o2) =
                    (do
                      let he ← tyHash h fu e2
                      Except.ok (167 ^^^ he ^^^ optIntHash len1)) from rfl,
                  hrec]
      | stringTy len1 l1 o1 =>
          cases y
          all_goals first | rfl | exact Bool.noConfusion (Except.ok.inj hab) | skip
          rename_i len2 l2 o2
          have hl : len1 = len2 := of_decide_eq_true (Except.ok.inj hab)
          subst hl
          rfl
      | func as1 tup1 r1 l1 o1 =>
          cases y
          all_goals first | rfl | exact Bool.noConfusion (Except.ok.inj hab) | skip
          rename_i as2 tup2 r2 l2 o2
          rw [tyEq.eq_def] at hab
          simp only [] at hab
          by_cases htup : tup1 ≠ tup2
          · rw [if_pos htup] at hab
            exact Bool.noConfusion (Except.ok.inj hab)
          · rw [if_neg htup] at hab
            have htupeq : tup1 = tup2 := not_not.mp htup
            by_cases hlen : as1.length ≠ as2.length
            · rw [if_pos hlen] at hab
              exact Bool.noConfusion (Except.ok.inj hab)
            · rw [if_neg hlen] at hab
              have hleneq : as1.length = as2.length := not_not.mp hlen
              obtain ⟨b, hb, hif⟩ := except_bind_eq_ok.mp hab
              cases b with
              | false =>
                  have hif2 : (Except.ok false : Except PyErr Bool) = .ok true := hif
                  exact Bool.noConfusion (Except.ok.inj hif2)
              | true =>
                  have hret : tyEq h fu r1 r2 = .ok true := hif
                  have hrec := ih r1 r2 hret
                  have hpair := forIn_tyEq_true h fu (as1.zip as2) true hb
                  have hmap := mapM_tyHash_congr h fu as1 as2 hleneq
                    (fun p hp => ih p.1 p.2 (hpair p hp))
                  subst htupeq
                  cases tup1 with
                  | false => rfl
                  | true =>
                      have hgoal : (do
                          let hs ← as1.mapM (fun x => tyHash h fu x)
                          let hr ← tyHash h fu r1
                          Except.ok (199 ^^^ tupleHash hs ^^^ hr)) =
                        (do
                          let hs ← as2.mapM (fun x => tyHash h fu x)
                          let hr ← tyHash h fu r2
                          Except.ok (199 ^^^ tupleHash hs ^^^ hr)) := by rw [hmap, hrec]
                      exact hgoal
      | lengthTy g1 l1 o1 =>
          cases y
          all_goals first | rfl | exact Bool.noConfusion (Except.ok.inj hab) | skip
          rename_i g2 l2 o2
          have hab2 : (if g1 ≠ g2 then (Except.ok false : Except PyErr Bool)
              else do
                let s1 ← arraySize o1
                let s2 ← arraySize o2
                Except.ok (decide (s1 = s2))) = .ok true := hab
          by_cases hg : g1 ≠ g2
          · rw [if_pos hg] at hab2
            exact Bool.noConfusion (Except.ok.inj hab2)
          · rw [if_neg hg] at hab2
            have hgeq : g1 = g2 := not_not.mp hg
            obtain ⟨s1, hs1, hrest⟩ := except_bind_eq_ok.mp hab2
            obtain ⟨s2, hs2, hfin⟩ := except_bind_eq_ok.mp hrest
            have hseq : s1 = s2 := of_decide_eq_true (Except.ok.inj hfin)
            subst hgeq
            rw [show tyHash h (fu + 1) (SimTy.lengthTy g1 l1 o1) =
                  (do
                    let s ← arraySize o1
                    Except.ok (179 ^^^ boolHash g1 ^^^ s.natAbs ^^^ noneHash ^^^ noneHash))
                  from rfl,
                show tyHash h (fu + 1) (SimTy.lengthTy g1 l2 o2) =
                  (do
                    let s ← arraySize o2
                    Except.ok (179 ^^^ boolHash g1 ^^^ s.natAbs ^^^ noneHash ^^^ noneHash))
                  from rfl,
                hs1, hs2, except_ok_bind, except_ok_bind, hseq]
      | floatTy s1 o1 =>
          cases y
          all_goals first | rfl | exact Bool.noConfusion (Except.ok.inj hab) | skip
          rename_i s2 o2
          have hs : s1 = s2 := of_decide_eq_true (Except.ok.inj hab)
          subst hs
          rfl
      | doubleTy o1 =>
          cases y <;> first | rfl | exact Bool.noConfusion (Except.ok.inj hab)
      | structRef r1 a1 =>
          cases y
          all_goals first | rfl | exact Bool.noConfusion (Except.ok.inj hab) | skip
          rename_i r2 a2
          have hab2 : (match h.get? r1, h.get? r2 with
              | some o1, some o2 => structEqBody (tyEq h fu) o1 o2
              | _, _ => Except.error (PyErr.valueError "dangling struct reference")) =
              .ok true := hab
          cases hg1 : h.get? r1 with
          | none =>
              rw [hg1] at hab2
              exact Except.noConfusion
                (show (Except.error (PyErr.valueError "dangling struct reference") :
                  Except PyErr Bool) = .ok true from hab2)
          | some o1 =>
              rw [hg1] at hab2
              cases hg2 : h.get? r2 with
              | none =>
                  rw [hg2] at hab2
                  exact Except.noConfusion
                    (show (Except.error (PyErr.valueError "dangling struct reference") :
                      Except PyErr Bool) = .ok true from hab2)
              | some o2 =>
                  rw [show tyHash h (fu + 1) (SimTy.structRef r1 a1) =
                        (match h.get? r1 with
                         | none => Except.error (PyErr.valueError "dangling struct reference")
                         | some _ => Except.error
                             (PyErr.typeError "unhashable type: \x27collections.OrderedDict\x27"))
                        from rfl,
                      show tyHash h (fu + 1) (SimTy.structRef r2 a2) =
                        (match h.get? r2 with
                         | none => Except.error (PyErr.valueError "dangling struct reference")
                         | some _ => Except.error
                             (PyErr.typeError "unhashable type: \x27collections.OrderedDict\x27"))
                        from rfl,
                      hg1, hg2]
      | union ms1 l1 o1 =>
          cases y <;> first | rfl | exact Bool.noConfusion (Except.ok.inj hab)

/-- Claim C4 (amended): equality is structural over each variant's declared
`_fields` and hashing is consistent with it — whenever two values compare
equal, their hashes agree as computations; the architecture is not itself
compared, so for variants whose declared fields are architecture-independent
(here the pointer-semantics char array) an unbound value and its
architecture-bound copy are equal with equal hash while answering size
differently (error versus 64); but for variants whose declared fields
include the computed `size` (int family, pointers, `size_t`), comparing an
unbound value raises instead (see the counterexample). -/
theorem c4_eq_hash_identity :
    (∀ (h : Heap) (fu : Nat) (x y : SimTy),
      tyEq h fu x y = .ok true → tyHash h fu x = tyHash h fu y) ∧
    tyEq [] 3 (.arrayTy (.char none none) none none none)
      (.arrayTy (.char none (some amd64)) none none (some amd64)) = .ok true ∧
    tyHash [] 3 (.arrayTy (.char none none) none none none) =
      tyHash [] 3 (.arrayTy (.char none (some amd64)) none none (some amd64)) ∧
    sizeA [] 1 (.arrayTy (.char none none) none none none) =
      .error (.valueError noArchMsgI) ∧
    sizeA [] 1 (.arrayTy (.char none (some amd64)) none none (some amd64)) = .ok 64 ∧
    withArchH 3 amd64 [] (.arrayTy (.char none none) none none none) =
      .ok (.arrayTy (.char none (some amd64)) none none (some amd64), []) :=
  ⟨tyEq_true_hash_eq, rfl, rfl, rfl, rfl, rfl⟩

/-- Claim C4, witness: the consistency statement applied to an unbound and a
bound `char` (which compare equal): their hashes agree. -/
theorem c4_witness :
    tyHash [] 2 (.char none none) = tyHash [] 2 (.char none (some amd64)) :=
  c4_eq_hash_identity.1 [] 2 (.char none none) (.char none (some amd64)) rfl

end AngrSimType
